import Mathlib

/-!
# Plex connection candidates (`plex/Client/PlexConnection.cpp`)

A shallow embedding of `CPlexConnection`: construction, `BuildURL`,
`TestReachability`, `Merge`, `GetHttpUrl` and `Equals`, followed by the
properties proved about them.

Strings are Lean strings handled through their character lists.  The HTTP
client and the server object are passed in as explicit values; member
functions that mutate the connection return the new connection.
-/

namespace Plex

/-! ## Strings -/

/-- The string type of the code base. -/
abbrev CStdString := String

namespace CStdString

/-- Test `IsEmpty()` / `empty()`: the string has no characters. -/
def IsEmpty (s : CStdString) : Bool := s.data.isEmpty

/-- Modelled from the spec: `CStdString::Equals` (its definition is in the string
header, which is absent) compares two strings for being identical. -/
def Equals (s t : CStdString) : Bool := decide (s = t)

/-- Index of the first occurrence of `ch` in `l`, counted from `i`, or `-1`. -/
def findFrom (ch : Char) : List Char → Int → Int
  | [], _ => -1
  | x :: xs, i => if x = ch then i else findFrom ch xs (i + 1)

/-- Call `Find(ch)`: index of the first occurrence of `ch`, or `-1` when absent. -/
def Find (s : CStdString) (ch : Char) : Int := findFrom ch s.data 0

/-- Call `substr(pos, n)`; `n = none` stands for `std::string::npos`.  Both call
sites have `pos` within the string, so the out-of-range exception cannot arise. -/
def substr (s : CStdString) (pos : Nat) (n : Option Nat) : CStdString :=
  match n with
  | none => ⟨s.data.drop pos⟩
  | some k => ⟨(s.data.drop pos).take k⟩

/-- Call `Replace(a, b)`: every occurrence of the character `a` becomes `b`. -/
def Replace (s : CStdString) (a b : Char) : CStdString :=
  ⟨s.data.map (fun x => if x = a then b else x)⟩

/-- The function `boost::starts_with`. -/
def starts_with (s pre : CStdString) : Bool := pre.data.isPrefixOf s.data

/-- The function `boost::ends_with`. -/
def ends_with (s suf : CStdString) : Bool := suf.data.isSuffixOf s.data

/-- Decimal rendering of a natural number, most significant digit first;
`fuel` bounds the number of digits. -/
def natDigits : Nat → Nat → List Char → List Char
  | 0, _, acc => acc
  | fuel + 1, n, acc =>
    let acc1 := Char.ofNat (48 + n % 10) :: acc
    if n / 10 = 0 then acc1 else natDigits fuel (n / 10) acc1

/-- The conversion `%d` of `Format`. -/
def formatInt (i : Int) : CStdString :=
  match i with
  | Int.ofNat n => ⟨natDigits (n + 1) n []⟩
  | Int.negSucc n => ⟨'-' :: natDigits (n + 2) (n + 1) []⟩

end CStdString

/-! ## The URL value type -/

/-- Modelled from the spec: the URL value type `CURL` (its source is absent):
settable scheme, hostname, port, path, and one query-parameter setter. -/
structure CURL where
  protocol : CStdString
  hostName : CStdString
  port : Int
  fileName : CStdString
  options : List (CStdString × CStdString)
  deriving DecidableEq, Repr

namespace CURL

/-- A default-constructed URL. -/
def empty : CURL := ⟨"", "", 0, "", []⟩

def GetProtocol (u : CURL) : CStdString := u.protocol
def GetHostName (u : CURL) : CStdString := u.hostName
def GetPort (u : CURL) : Int := u.port
def GetFileName (u : CURL) : CStdString := u.fileName

def SetProtocol (u : CURL) (s : CStdString) : CURL := { u with protocol := s }
def SetHostName (u : CURL) (s : CStdString) : CURL := { u with hostName := s }
def SetPort (u : CURL) (p : Int) : CURL := { u with port := p }
def SetFileName (u : CURL) (s : CStdString) : CURL := { u with fileName := s }

/-- Replace the value bound to `k`, or add the binding at the end. -/
def setKey (k v : CStdString) : List (CStdString × CStdString) → List (CStdString × CStdString)
  | [] => [(k, v)]
  | (k1, v1) :: rest => if k1 = k then (k, v) :: rest else (k1, v1) :: setKey k v rest

/-- Value bound to `k`, if any. -/
def getKey (k : CStdString) : List (CStdString × CStdString) → Option CStdString
  | [] => none
  | (k1, v1) :: rest => if k1 = k then some v1 else getKey k rest

/-- Modelled from the spec: the one query-parameter setter of the URL type. -/
def SetOption (u : CURL) (k v : CStdString) : CURL := { u with options := setKey k v u.options }

/-- The value of query parameter `k`, when the URL carries it. -/
def GetOption (u : CURL) (k : CStdString) : Option CStdString := getKey k u.options

/-- Whether the URL carries query parameter `k`. -/
def HasOption (u : CURL) (k : CStdString) : Bool := (getKey k u.options).isSome

/-- Rendering of the query parameters. -/
def optionsString : List (CStdString × CStdString) → Bool → CStdString
  | [], _ => ""
  | (k, v) :: rest, first =>
    (if first then "?" else "&") ++ k ++ "=" ++ v ++ optionsString rest false

/-- Modelled from the spec: `CURL::Get` (its source is absent) produces a canonical
string form of the URL.  The connection code below takes the rendering as an
argument; this one serves to evaluate it on concrete inputs. -/
def Get (u : CURL) : CStdString :=
  u.protocol ++ "://" ++ u.hostName ++ ":" ++ CStdString.formatInt u.port ++ "/"
    ++ u.fileName ++ optionsString u.options true

end CURL

/-! ## Collaborators -/

/-- The enumeration `CPlexConnection::ConnectionState`. -/
inductive ConnectionState where
  | CONNECTION_STATE_UNKNOWN
  | CONNECTION_STATE_UNREACHABLE
  | CONNECTION_STATE_REACHABLE
  | CONNECTION_STATE_UNAUTHORIZED
  deriving DecidableEq, Repr

open ConnectionState

/-- What one `m_http.Get(url, rootXml)` call leaves behind: its return value, the
body it stored in `rootXml`, and the answers of `DidCancel()` and
`GetLastHTTPResponseCode()` afterwards. -/
structure HttpResult where
  ok : Bool
  body : CStdString
  DidCancel : Bool
  LastHTTPResponseCode : Int
  deriving DecidableEq, Repr

/-- The HTTP client `m_http` after `Reset()`: the outcome of a GET of a URL string. -/
abbrev Transport := CStdString → HttpResult

/-- The members of `CPlexServer` that `TestReachability` calls. -/
structure CPlexServer where
  HasAuthToken : Bool
  GetAnyToken : CStdString
  CollectDataFromRoot : CStdString → Bool

/-! ## The connection -/

/-- Data members of `CPlexConnection`. -/
structure CPlexConnection where
  m_type : Nat
  m_state : ConnectionState
  m_token : CStdString
  m_url : CURL
  m_refreshed : Bool
  deriving DecidableEq, Repr

namespace CPlexConnection

/-- The constructor `CPlexConnection(type, host, port, schema, token)`; the warning
it logs for an empty host, port or schema has no effect on the object, and the
timeout and `Accept` header it sets on `m_http` belong to the transport. -/
def new (type : Nat) (host : CStdString) (port : Int) (schema token : CStdString) :
    CPlexConnection :=
  { m_type := type
    m_state := CONNECTION_STATE_UNKNOWN
    m_token := token
    m_url := ((CURL.empty.SetHostName host).SetPort port).SetProtocol schema
    m_refreshed := true }

/-- Modelled from the spec: `isSSL()` (defined in the class header, which is absent):
the endpoint is secure, that is, its scheme is https. -/
def isSSL (c : CPlexConnection) : Bool := decide (c.m_url.GetProtocol = "https")

/-- Modelled from the spec: `GetAccessToken()` (defined in the class header, which is
absent) is the token the candidate holds. -/
def GetAccessToken (c : CPlexConnection) : CStdString := c.m_token

/-- Method `BuildURL(path)`.  `tokenParam` is the value of
`GetAccessTokenParameter()`, whose definition is in the absent class header. -/
def BuildURL (tokenParam : CStdString) (c : CPlexConnection) (path : CStdString) : CURL :=
  let ret := c.m_url
  let p := if CStdString.starts_with path "/" then CStdString.substr path 1 none else path
  let ret := ret.SetFileName p
  if !(CStdString.IsEmpty c.GetAccessToken) then
    ret.SetOption tokenParam c.GetAccessToken
  else
    ret

/-- The URL that `TestReachability` hands to `m_http.Get`. -/
def probeURL (tokenParam : CStdString) (server : CPlexServer) (c : CPlexConnection) : CURL :=
  let url := c.BuildURL tokenParam "/"
  if CStdString.IsEmpty c.GetAccessToken && server.HasAuthToken then
    url.SetOption tokenParam server.GetAnyToken
  else
    url

/-- Method `TestReachability(server)`: the returned state and the connection
afterwards.  `urlGet` is `CURL::Get`. -/
def TestReachability (urlGet : CURL → CStdString) (tokenParam : CStdString)
    (http : Transport) (server : CPlexServer) (c : CPlexConnection) :
    ConnectionState × CPlexConnection :=
  let url := probeURL tokenParam server c
  let r := http (urlGet url)
  let c1 : CPlexConnection :=
    if r.ok then
      if server.CollectDataFromRoot r.body then
        { c with m_state := CONNECTION_STATE_REACHABLE }
      else
        { c with m_state := CONNECTION_STATE_UNREACHABLE }
    else
      if r.DidCancel then
        { c with m_state := CONNECTION_STATE_UNKNOWN }
      else if r.LastHTTPResponseCode = 401 then
        { c with m_state := CONNECTION_STATE_UNAUTHORIZED }
      else
        { c with m_state := CONNECTION_STATE_UNREACHABLE }
  (c1.m_state, c1)

/-- Method `Merge(otherConnection)`, as the connection it leaves in `this`. -/
def Merge (c other : CPlexConnection) : CPlexConnection :=
  let c1 := if !c.isSSL || other.isSSL then { c with m_url := other.m_url } else c
  let c2 := { c1 with m_type := c1.m_type ||| other.m_type }
  let c3 :=
    if CStdString.IsEmpty c2.m_token ||
        (!(CStdString.IsEmpty other.m_token) && decide (c2.m_token ≠ other.m_token)) then
      { c2 with m_token := other.m_token }
    else c2
  let c4 :=
    if c3.m_state ≠ CONNECTION_STATE_REACHABLE ∧ other.m_state = CONNECTION_STATE_REACHABLE then
      { c3 with m_state := other.m_state }
    else c3
  { c4 with m_refreshed := true }

/-- Method `GetHttpUrl()`.  `urlGet` is `CURL::Get`. -/
def GetHttpUrl (urlGet : CURL → CStdString) (c : CPlexConnection) : CStdString :=
  if c.m_url.GetProtocol = "https" ∧
      CStdString.ends_with c.m_url.GetHostName ".plex.direct" = true then
    let host := c.m_url.GetHostName
    let delimeter := CStdString.Find host '.'
    if delimeter > 0 then
      let host := CStdString.substr host 0 (some delimeter.toNat)
      let host := CStdString.Replace host '-' '.'
      "http://" ++ host ++ ":" ++ CStdString.formatInt c.m_url.GetPort ++ "/"
    else
      urlGet c.m_url
  else
    urlGet c.m_url

/-- Method `Equals(other)`; `none` is the null pointer.  The two debug log lines
have no effect on the result. -/
def Equals (urlGet : CURL → CStdString) (c : CPlexConnection) (other : Option CPlexConnection) :
    Bool :=
  match other with
  | none => false
  | some o =>
    let url1 := c.GetHttpUrl urlGet
    let url2 := o.GetHttpUrl urlGet
    let uriMatches := CStdString.Equals url1 url2
    let tokenMatches :=
      if CStdString.IsEmpty c.m_token && !(CStdString.IsEmpty o.m_token) then true
      else if !(CStdString.IsEmpty c.m_token) && CStdString.IsEmpty o.m_token then true
      else CStdString.Equals c.m_token o.m_token
    uriMatches && tokenMatches

end CPlexConnection

open CPlexConnection

/-! ## Notions used by the statements -/

/-- Modelled from the spec: the origin flag for a manually entered candidate (the
enumeration `ConnectionType` is declared in the absent class header); the three
origin flags are distinct bits, so that masks combine by union. -/
def CONNECTION_MANUAL : Nat := 1

/-- Modelled from the spec: the origin flag for a candidate found by local discovery. -/
def CONNECTION_DISCOVERED : Nat := 2

/-- Modelled from the spec: the origin flag for a candidate from the remote directory
(plex.tv). -/
def CONNECTION_MYPLEX : Nat := 4

/-- One operation on a collection of candidates: probe candidate `i` with the given
transport and server, or fold candidate `j` into candidate `i`. -/
inductive Action where
  | probe (i : Nat) (http : Transport) (server : CPlexServer)
  | merge (i j : Nat)

/-- Effect of one operation on the collection; an index outside the collection
leaves it as it is. -/
def applyAction (urlGet : CURL → CStdString) (tokenParam : CStdString)
    (cs : List CPlexConnection) : Action → List CPlexConnection
  | Action.probe i http server =>
    match cs[i]? with
    | some c => cs.set i (TestReachability urlGet tokenParam http server c).2
    | none => cs
  | Action.merge i j =>
    match cs[i]?, cs[j]? with
    | some c, some o => cs.set i (Merge c o)
    | _, _ => cs

/-- Whether an operation is a probe whose GET succeeds and whose body the server
accepts, in the collection as it is when the operation runs. -/
def positiveProbe (urlGet : CURL → CStdString) (tokenParam : CStdString)
    (cs : List CPlexConnection) : Action → Bool
  | Action.probe i http server =>
    match cs[i]? with
    | some c =>
      (http (urlGet (probeURL tokenParam server c))).ok &&
        server.CollectDataFromRoot (http (urlGet (probeURL tokenParam server c))).body
    | none => false
  | Action.merge _ _ => false

/-- The collection after a sequence of operations. -/
def runActions (urlGet : CURL → CStdString) (tokenParam : CStdString) :
    List CPlexConnection → List Action → List CPlexConnection
  | cs, [] => cs
  | cs, a :: rest => runActions urlGet tokenParam (applyAction urlGet tokenParam cs a) rest

/-- No operation of the sequence is a positively interpreted probe. -/
def noPositiveProbe (urlGet : CURL → CStdString) (tokenParam : CStdString) :
    List CPlexConnection → List Action → Bool
  | _, [] => true
  | cs, a :: rest =>
    !(positiveProbe urlGet tokenParam cs a) &&
      noPositiveProbe urlGet tokenParam (applyAction urlGet tokenParam cs a) rest

/-- Arguments of one constructor call: type, host, port, schema, token. -/
abbrev CtorArgs := Nat × CStdString × Int × CStdString × CStdString

/-- The candidates constructed from a list of constructor arguments. -/
def construct (args : List CtorArgs) : List CPlexConnection :=
  args.map (fun a => CPlexConnection.new a.1 a.2.1 a.2.2.1 a.2.2.2.1 a.2.2.2.2)

/-- The token matching rule in the words of the specification: at least one of the
two tokens is empty, or both are non-empty and identical. -/
def tokensMatch (s t : CStdString) : Prop :=
  (s = "" ∨ t = "") ∨ (s ≠ "" ∧ t ≠ "" ∧ s = t)

instance (s t : CStdString) : Decidable (tokensMatch s t) := by
  unfold tokensMatch
  infer_instance

/-- The first label of a hostname in the words of the specification: the part before
its first `.` (the whole name when it has none). -/
def firstLabel (host : CStdString) : CStdString :=
  ⟨host.data.takeWhile (fun x => x != '.')⟩

/-- Every `-` of a label turned into `.`, in the words of the specification. -/
def dashesToDots (s : CStdString) : CStdString :=
  ⟨s.data.map (fun x => if x = '-' then '.' else x)⟩

/-! ## Sample values -/

/-- An insecure candidate at host `a`. -/
def sampleA : CPlexConnection := CPlexConnection.new 1 "a" 32400 "http" ""

/-- An insecure candidate at host `b`. -/
def sampleB : CPlexConnection := CPlexConnection.new 2 "b" 32400 "http" ""

/-- A secure candidate with a generated hostname. -/
def sampleDirect : CPlexConnection :=
  CPlexConnection.new 4 "203-0-113-5.plex.direct" 32400 "https" "T"

/-- A candidate holding token `T`, at the address of `sampleA`. -/
def sampleT : CPlexConnection := CPlexConnection.new 4 "a" 32400 "http" "T"

/-- A candidate holding token `U`, at the address of `sampleA`. -/
def sampleU : CPlexConnection := CPlexConnection.new 4 "a" 32400 "http" "U"

/-- A secure candidate whose hostname is not a generated one. -/
def sampleSecure : CPlexConnection := CPlexConnection.new 4 "example.org" 443 "https" "T"

/-- A server object that holds a token and recognises one root document. -/
def sampleServer : CPlexServer :=
  { HasAuthToken := true
    GetAnyToken := "S"
    CollectDataFromRoot := fun body => decide (body = "<MediaContainer/>") }

/-- A transport whose GET succeeds with the document the sample server recognises. -/
def httpValid : Transport := fun _ => ⟨true, "<MediaContainer/>", false, 200⟩

/-- A transport whose GET succeeds with a document the sample server rejects. -/
def httpInvalid : Transport := fun _ => ⟨true, "<html/>", false, 200⟩

/-- A transport whose GET fails because it was cancelled. -/
def httpCancelled : Transport := fun _ => ⟨false, "", true, 0⟩

/-- A transport whose GET fails with status 401. -/
def httpDenied : Transport := fun _ => ⟨false, "", false, 401⟩

/-- A transport whose GET fails without a status. -/
def httpDown : Transport := fun _ => ⟨false, "", false, 0⟩

/-- A transport whose GET was cancelled while the last status reads 401. -/
def httpCancelled401 : Transport := fun _ => ⟨false, "", true, 401⟩

/-- A manually entered candidate: insecure, without a token. -/
def sampleManual : CPlexConnection :=
  CPlexConnection.new CONNECTION_MANUAL "192.0.2.7" 32400 "http" ""

/-- A candidate from the remote directory: secure, with token `T`. -/
def sampleMyPlex : CPlexConnection :=
  CPlexConnection.new CONNECTION_MYPLEX "203-0-113-5.plex.direct" 32400 "https" "T"

/-- A secure candidate whose hostname is the bare suffix, with an empty first label. -/
def sampleBare : CPlexConnection := CPlexConnection.new 4 ".plex.direct" 32400 "https" "T"

/-- A server object that holds no token and accepts no document. -/
def sampleServerNoToken : CPlexServer :=
  { HasAuthToken := false
    GetAnyToken := ""
    CollectDataFromRoot := fun _ => false }

/-- Constructor arguments of two candidates for the same server. -/
def sampleArgs : List CtorArgs :=
  [(CONNECTION_MANUAL, "192.0.2.7", 32400, "http", ""),
    (CONNECTION_MYPLEX, "203-0-113-5.plex.direct", 32400, "https", "T")]

/-- A sequence of probes and merges without a positively interpreted probe. -/
def sampleActions : List Action :=
  [Action.probe 0 httpDown sampleServer, Action.probe 1 httpInvalid sampleServer,
    Action.merge 0 1, Action.probe 0 httpDenied sampleServer, Action.merge 1 0,
    Action.probe 1 httpCancelled sampleServer]

/-! ## Auxiliary facts -/

theorem CStdString.IsEmpty_iff (s : CStdString) : CStdString.IsEmpty s = true ↔ s = "" := by
  cases s with
  | mk l =>
    cases l with
    | nil => simp [CStdString.IsEmpty]
    | cons x xs =>
      simp [CStdString.IsEmpty]
      intro h
      have := congrArg String.data h
      simp at this

theorem CStdString.IsEmpty_eq_false_iff (s : CStdString) :
    CStdString.IsEmpty s = false ↔ s ≠ "" := by
  have h := CStdString.IsEmpty_iff s
  cases hs : CStdString.IsEmpty s <;> simp [hs] at h ⊢ <;> exact h

/-! ## Merge -/

theorem Merge_m_url (c other : CPlexConnection) :
    (Merge c other).m_url =
      if (!c.isSSL || other.isSSL) = true then other.m_url else c.m_url := by
  simp only [Merge]
  split_ifs <;> rfl

theorem Merge_m_type (c other : CPlexConnection) :
    (Merge c other).m_type = c.m_type ||| other.m_type := by
  simp only [Merge]
  split_ifs <;> rfl

theorem Merge_m_token (c other : CPlexConnection) :
    (Merge c other).m_token =
      if (CStdString.IsEmpty c.m_token ||
          (!(CStdString.IsEmpty other.m_token) && decide (c.m_token ≠ other.m_token))) = true
      then other.m_token else c.m_token := by
  simp only [Merge]
  split_ifs <;> rfl

theorem Merge_m_state (c other : CPlexConnection) :
    (Merge c other).m_state =
      if c.m_state ≠ CONNECTION_STATE_REACHABLE ∧ other.m_state = CONNECTION_STATE_REACHABLE
      then other.m_state else c.m_state := by
  simp only [Merge]
  split_ifs <;> rfl

theorem Merge_m_refreshed (c other : CPlexConnection) :
    (Merge c other).m_refreshed = true := by
  simp only [Merge]

/-- C1, as the code has it: after `Merge` the endpoint is the other candidate's,
except when the receiving candidate is secure (https) and the other is not, in
which case the receiving candidate keeps its endpoint. -/
theorem Merge_url (c other : CPlexConnection) :
    (Merge c other).m_url =
      if c.isSSL = true ∧ other.isSSL = false then c.m_url else other.m_url := by
  rw [Merge_m_url]
  cases c.isSSL <;> cases other.isSSL <;> simp

/-- C1 fails as stated: two insecure candidates with different endpoints, and two
secure candidates with different endpoints; in both cases the merge replaces the
receiving candidate's endpoint by the other's. -/
theorem Merge_url_same_security_replaced :
    (sampleA.isSSL = false ∧ sampleB.isSSL = false ∧ sampleA.m_url ≠ sampleB.m_url ∧
        (Merge sampleA sampleB).m_url ≠ sampleA.m_url ∧
        (Merge sampleA sampleB).m_url = sampleB.m_url) ∧
      (sampleDirect.isSSL = true ∧ sampleSecure.isSSL = true ∧
        sampleDirect.m_url ≠ sampleSecure.m_url ∧
        (Merge sampleDirect sampleSecure).m_url ≠ sampleDirect.m_url ∧
        (Merge sampleDirect sampleSecure).m_url = sampleSecure.m_url) := by
  decide

/-- C2: the merged state is Reachable exactly when one of the two candidates was
Reachable before; when neither was, the merged state is the receiving candidate's
previous state. -/
theorem Merge_state (c other : CPlexConnection) :
    ((Merge c other).m_state = CONNECTION_STATE_REACHABLE ↔
        (c.m_state = CONNECTION_STATE_REACHABLE ∨ other.m_state = CONNECTION_STATE_REACHABLE)) ∧
      (c.m_state ≠ CONNECTION_STATE_REACHABLE → other.m_state ≠ CONNECTION_STATE_REACHABLE →
        (Merge c other).m_state = c.m_state) := by
  rw [Merge_m_state]
  constructor
  · by_cases h1 : c.m_state = CONNECTION_STATE_REACHABLE <;>
      by_cases h2 : other.m_state = CONNECTION_STATE_REACHABLE <;> simp [h1, h2]
  · intro _ h2
    simp [h2]

/-- Witness of C2 on two unprobed candidates. -/
theorem Merge_state_witness :
    ((Merge sampleA sampleB).m_state = CONNECTION_STATE_REACHABLE ↔
        (sampleA.m_state = CONNECTION_STATE_REACHABLE ∨
          sampleB.m_state = CONNECTION_STATE_REACHABLE)) ∧
      (Merge sampleA sampleB).m_state = sampleA.m_state :=
  ⟨(Merge_state sampleA sampleB).1, (Merge_state sampleA sampleB).2 (by decide) (by decide)⟩

/-- C3: the merged token is the other candidate's when the receiving candidate's
token is empty or the other's is non-empty and different, and the receiving
candidate's otherwise; a non-empty token is never replaced by an empty one. -/
theorem Merge_token (c other : CPlexConnection) :
    ((c.m_token = "" ∨ (other.m_token ≠ "" ∧ other.m_token ≠ c.m_token)) →
        (Merge c other).m_token = other.m_token) ∧
      (¬ (c.m_token = "" ∨ (other.m_token ≠ "" ∧ other.m_token ≠ c.m_token)) →
        (Merge c other).m_token = c.m_token) ∧
      (c.m_token ≠ "" → (Merge c other).m_token ≠ "") := by
  have hcond : (CStdString.IsEmpty c.m_token ||
        (!(CStdString.IsEmpty other.m_token) && decide (c.m_token ≠ other.m_token))) = true ↔
      (c.m_token = "" ∨ (other.m_token ≠ "" ∧ other.m_token ≠ c.m_token)) := by
    rw [Bool.or_eq_true, Bool.and_eq_true, Bool.not_eq_true', decide_eq_true_iff,
      CStdString.IsEmpty_iff, CStdString.IsEmpty_eq_false_iff, ne_comm (a := c.m_token)]
  rw [Merge_m_token]
  refine ⟨fun h => if_pos (hcond.2 h), fun h => if_neg (fun h1 => h (hcond.1 h1)), fun h => ?_⟩
  split
  · next h1 =>
    rcases hcond.1 h1 with h2 | h2
    · exact absurd h2 h
    · exact h2.1
  · exact h

/-- Witness of C3: an empty token adopts `T`; `T` is kept against an empty token, and
replaced by the different token `U`, non-empty in both cases. -/
theorem Merge_token_witness :
    (Merge sampleA sampleT).m_token = sampleT.m_token ∧
      (Merge sampleT sampleA).m_token = sampleT.m_token ∧
      (Merge sampleT sampleU).m_token ≠ "" :=
  ⟨(Merge_token sampleA sampleT).1 (by decide),
    (Merge_token sampleT sampleA).2.1 (by decide),
    (Merge_token sampleT sampleU).2.2 (by decide)⟩

/-! ## TestReachability -/

theorem TestReachability_snd (urlGet : CURL → CStdString) (tokenParam : CStdString)
    (http : Transport) (server : CPlexServer) (c : CPlexConnection) :
    (TestReachability urlGet tokenParam http server c).2 =
      { c with m_state := (TestReachability urlGet tokenParam http server c).1 } := by
  simp only [TestReachability]
  split_ifs <;> rfl

theorem probeURL_state (tokenParam : CStdString) (server : CPlexServer) (c : CPlexConnection)
    (s : ConnectionState) :
    probeURL tokenParam server { c with m_state := s } = probeURL tokenParam server c := rfl

/-- C4: `TestReachability` classifies the outcome of the GET: success with a root
document the server accepts is Reachable, success with one it rejects is
Unreachable, a cancelled failure is Unknown, a failure with status 401 that was not
cancelled is Unauthorized, any other failure is Unreachable.  The state stored on the
candidate is the returned one, and the candidate's previous state has no influence. -/
theorem TestReachability_classifies (urlGet : CURL → CStdString) (tokenParam : CStdString)
    (http : Transport) (server : CPlexServer) (c : CPlexConnection) :
    ((http (urlGet (probeURL tokenParam server c))).ok = true →
        server.CollectDataFromRoot (http (urlGet (probeURL tokenParam server c))).body = true →
        (TestReachability urlGet tokenParam http server c).1 = CONNECTION_STATE_REACHABLE) ∧
      ((http (urlGet (probeURL tokenParam server c))).ok = true →
        server.CollectDataFromRoot (http (urlGet (probeURL tokenParam server c))).body = false →
        (TestReachability urlGet tokenParam http server c).1 = CONNECTION_STATE_UNREACHABLE) ∧
      ((http (urlGet (probeURL tokenParam server c))).ok = false →
        (http (urlGet (probeURL tokenParam server c))).DidCancel = true →
        (TestReachability urlGet tokenParam http server c).1 = CONNECTION_STATE_UNKNOWN) ∧
      ((http (urlGet (probeURL tokenParam server c))).ok = false →
        (http (urlGet (probeURL tokenParam server c))).DidCancel = false →
        (http (urlGet (probeURL tokenParam server c))).LastHTTPResponseCode = 401 →
        (TestReachability urlGet tokenParam http server c).1 = CONNECTION_STATE_UNAUTHORIZED) ∧
      ((http (urlGet (probeURL tokenParam server c))).ok = false →
        (http (urlGet (probeURL tokenParam server c))).DidCancel = false →
        (http (urlGet (probeURL tokenParam server c))).LastHTTPResponseCode ≠ 401 →
        (TestReachability urlGet tokenParam http server c).1 = CONNECTION_STATE_UNREACHABLE) ∧
      (TestReachability urlGet tokenParam http server c).2.m_state =
        (TestReachability urlGet tokenParam http server c).1 ∧
      (∀ s : ConnectionState,
        (TestReachability urlGet tokenParam http server { c with m_state := s }).1 =
          (TestReachability urlGet tokenParam http server c).1) := by
  refine ⟨?_, ?_, ?_, ?_, ?_, ?_, ?_⟩
  · intro h1 h2
    simp [TestReachability, h1, h2]
  · intro h1 h2
    simp [TestReachability, h1, h2]
  · intro h1 h2
    simp [TestReachability, h1, h2]
  · intro h1 h2 h3
    simp [TestReachability, h1, h2, h3]
  · intro h1 h2 h3
    simp [TestReachability, h1, h2, h3]
  · rw [TestReachability_snd]
  · intro s
    simp only [TestReachability, probeURL_state]

/-- Witness of C4: the five outcomes of the classification table, probed on a
candidate without a token against a server that lends its own. -/
theorem TestReachability_classifies_witness :
    (TestReachability CURL.Get "X-Plex-Token" httpValid sampleServer sampleA).1 =
        CONNECTION_STATE_REACHABLE ∧
      (TestReachability CURL.Get "X-Plex-Token" httpInvalid sampleServer sampleA).1 =
        CONNECTION_STATE_UNREACHABLE ∧
      (TestReachability CURL.Get "X-Plex-Token" httpCancelled sampleServer sampleA).1 =
        CONNECTION_STATE_UNKNOWN ∧
      (TestReachability CURL.Get "X-Plex-Token" httpDenied sampleServer sampleA).1 =
        CONNECTION_STATE_UNAUTHORIZED ∧
      (TestReachability CURL.Get "X-Plex-Token" httpDown sampleServer sampleA).1 =
        CONNECTION_STATE_UNREACHABLE :=
  ⟨(TestReachability_classifies CURL.Get "X-Plex-Token" httpValid sampleServer sampleA).1
      (by decide) (by decide),
    (TestReachability_classifies CURL.Get "X-Plex-Token" httpInvalid sampleServer sampleA).2.1
      (by decide) (by decide),
    (TestReachability_classifies CURL.Get "X-Plex-Token" httpCancelled sampleServer sampleA).2.2.1
      (by decide) (by decide),
    (TestReachability_classifies CURL.Get "X-Plex-Token" httpDenied sampleServer sampleA).2.2.2.1
      (by decide) (by decide) (by decide),
    (TestReachability_classifies CURL.Get "X-Plex-Token" httpDown sampleServer sampleA).2.2.2.2.1
      (by decide) (by decide) (by decide)⟩

/-! ## Equals -/

theorem Equals_some_iff (urlGet : CURL → CStdString) (a b : CPlexConnection) :
    Equals urlGet a (some b) = true ↔
      (GetHttpUrl urlGet a = GetHttpUrl urlGet b ∧
        (a.m_token = "" ∨ b.m_token = "" ∨ a.m_token = b.m_token)) := by
  have ha := CStdString.IsEmpty_iff a.m_token
  have hb := CStdString.IsEmpty_iff b.m_token
  simp only [Equals, CStdString.Equals]
  cases hae : CStdString.IsEmpty a.m_token <;> cases hbe : CStdString.IsEmpty b.m_token <;>
    simp [hae, hbe] at ha hb <;> simp [ha, hb]

/-- C5: for a non-null `b`, `a.Equals(b)` holds exactly when the two plain URLs are
identical strings and the tokens match (one of them empty, or both non-empty and
identical); so identical plain URLs with one empty token make the candidates equal
whatever the other token is. -/
theorem Equals_iff (urlGet : CURL → CStdString) (a b : CPlexConnection) :
    (Equals urlGet a (some b) = true ↔
        (GetHttpUrl urlGet a = GetHttpUrl urlGet b ∧ tokensMatch a.m_token b.m_token)) ∧
      (GetHttpUrl urlGet a = GetHttpUrl urlGet b → (a.m_token = "" ∨ b.m_token = "") →
        Equals urlGet a (some b) = true) := by
  have hm : tokensMatch a.m_token b.m_token ↔
      (a.m_token = "" ∨ b.m_token = "" ∨ a.m_token = b.m_token) := by
    unfold tokensMatch
    constructor
    · rintro ((h | h) | ⟨_, _, h⟩)
      · exact Or.inl h
      · exact Or.inr (Or.inl h)
      · exact Or.inr (Or.inr h)
    · intro h
      by_cases h1 : a.m_token = ""
      · exact Or.inl (Or.inl h1)
      · by_cases h2 : b.m_token = ""
        · exact Or.inl (Or.inr h2)
        · rcases h with h | h | h
          · exact absurd h h1
          · exact absurd h h2
          · exact Or.inr ⟨h1, h2, h⟩
  rw [Equals_some_iff, hm]
  refine ⟨Iff.rfl, fun hu ht => ⟨hu, ?_⟩⟩
  rcases ht with h | h
  · exact Or.inl h
  · exact Or.inr (Or.inl h)

/-- Witness of C5: the same address without a token and with token `T`. -/
theorem Equals_iff_witness :
    Equals CURL.Get sampleA (some sampleT) = true ∧
      Equals CURL.Get sampleT (some sampleA) = true :=
  ⟨(Equals_iff CURL.Get sampleA sampleT).2 (by decide) (by decide),
    (Equals_iff CURL.Get sampleT sampleA).2 (by decide) (by decide)⟩

/-- C6: `Equals` is reflexive and symmetric. -/
theorem Equals_refl_symm (urlGet : CURL → CStdString) (a b : CPlexConnection) :
    Equals urlGet a (some a) = true ∧ Equals urlGet a (some b) = Equals urlGet b (some a) := by
  constructor
  · rw [Equals_some_iff]
    exact ⟨rfl, Or.inr (Or.inr rfl)⟩
  · rw [Bool.eq_iff_iff, Equals_some_iff, Equals_some_iff]
    constructor
    · rintro ⟨hu, h | h | h⟩
      · exact ⟨hu.symm, Or.inr (Or.inl h)⟩
      · exact ⟨hu.symm, Or.inl h⟩
      · exact ⟨hu.symm, Or.inr (Or.inr h.symm)⟩
    · rintro ⟨hu, h | h | h⟩
      · exact ⟨hu.symm, Or.inr (Or.inl h)⟩
      · exact ⟨hu.symm, Or.inl h⟩
      · exact ⟨hu.symm, Or.inr (Or.inr h.symm)⟩

/-! ## GetHttpUrl -/

theorem CStdString.findFrom_of_mem (ch : Char) (l : List Char) (i : Int) (h : ch ∈ l) :
    CStdString.findFrom ch l i = i + ((l.takeWhile (fun x => x != ch)).length : Int) := by
  induction l generalizing i with
  | nil => simp at h
  | cons x xs ih =>
    by_cases hx : x = ch
    · simp [CStdString.findFrom, hx]
    · have hmem : ch ∈ xs := by
        rcases List.mem_cons.1 h with h1 | h1
        · exact absurd h1.symm hx
        · exact h1
      simp only [CStdString.findFrom, hx, if_false]
      rw [ih (i + 1) hmem, List.takeWhile_cons_of_pos (by simpa using hx)]
      simp only [List.length_cons, Nat.cast_add, Nat.cast_one]
      ring

theorem CStdString.take_length_takeWhile (q : Char → Bool) (l : List Char) :
    l.take (l.takeWhile q).length = l.takeWhile q := by
  induction l with
  | nil => rfl
  | cons x xs ih =>
    by_cases hx : q x = true
    · rw [List.takeWhile_cons_of_pos hx]
      simp [ih]
    · rw [List.takeWhile_cons_of_neg hx]
      simp

theorem CStdString.mem_of_ends_with (s : CStdString) (h : CStdString.ends_with s ".plex.direct" = true) :
    '.' ∈ s.data := by
  unfold CStdString.ends_with at h
  rw [List.isSuffixOf_iff_suffix] at h
  obtain ⟨t, ht⟩ := h
  rw [← ht]
  exact List.mem_append_right t (by decide)

/-- C7: for an https candidate whose hostname ends with `.plex.direct` and has a
non-empty first label, `GetHttpUrl` is `http://` followed by the first label with
every `-` turned into `.`, then `:`, the candidate's port and `/`; the labels after
the first are dropped. -/
theorem GetHttpUrl_plex_direct (urlGet : CURL → CStdString) (c : CPlexConnection)
    (hs : c.m_url.GetProtocol = "https")
    (he : CStdString.ends_with c.m_url.GetHostName ".plex.direct" = true)
    (hl : firstLabel c.m_url.GetHostName ≠ "") :
    GetHttpUrl urlGet c =
      "http://" ++ dashesToDots (firstLabel c.m_url.GetHostName) ++ ":" ++
        CStdString.formatInt c.m_url.GetPort ++ "/" := by
  have hfind : CStdString.Find c.m_url.GetHostName '.' =
      (((c.m_url.GetHostName).data.takeWhile (fun x => x != '.')).length : Int) := by
    unfold CStdString.Find
    rw [CStdString.findFrom_of_mem '.' _ 0 (CStdString.mem_of_ends_with _ he)]
    simp
  have hpos : CStdString.Find c.m_url.GetHostName '.' > 0 := by
    rw [hfind]
    have hne : (c.m_url.GetHostName).data.takeWhile (fun x => x != '.') ≠ [] := by
      intro h0
      apply hl
      unfold firstLabel
      rw [h0]
    have := List.length_pos.2 hne
    exact_mod_cast this
  have hsub : CStdString.substr c.m_url.GetHostName 0
      (some (CStdString.Find c.m_url.GetHostName '.').toNat) = firstLabel c.m_url.GetHostName := by
    rw [hfind]
    simp only [CStdString.substr, Int.toNat_ofNat, List.drop_zero, firstLabel]
    rw [CStdString.take_length_takeWhile]
  unfold GetHttpUrl
  rw [if_pos ⟨hs, he⟩]
  simp only []
  rw [if_pos hpos, hsub]
  rfl

/-- Witness of C7: https, host `203-0-113-5.plex.direct`, port 32400. -/
theorem GetHttpUrl_plex_direct_witness :
    GetHttpUrl CURL.Get sampleDirect = "http://203.0.113.5:32400/" :=
  (GetHttpUrl_plex_direct CURL.Get sampleDirect (by decide) (by decide) (by decide)).trans
    (by decide)

/-- C8: a candidate whose hostname does not end with `.plex.direct`, and likewise a
candidate whose scheme is not https, has the canonical string of its stored endpoint
as `GetHttpUrl`. -/
theorem GetHttpUrl_unmodified (urlGet : CURL → CStdString) (c : CPlexConnection) :
    (CStdString.ends_with c.m_url.GetHostName ".plex.direct" = false →
        GetHttpUrl urlGet c = urlGet c.m_url) ∧
      (c.m_url.GetProtocol ≠ "https" → GetHttpUrl urlGet c = urlGet c.m_url) := by
  constructor
  · intro h
    unfold GetHttpUrl
    rw [if_neg (fun hc => by simp [h] at hc)]
  · intro h
    unfold GetHttpUrl
    rw [if_neg (fun hc => h hc.1)]

/-- Witness of C8: an https candidate at `example.org`, and an http candidate. -/
theorem GetHttpUrl_unmodified_witness :
    GetHttpUrl CURL.Get sampleSecure = CURL.Get sampleSecure.m_url ∧
      GetHttpUrl CURL.Get sampleA = CURL.Get sampleA.m_url :=
  ⟨(GetHttpUrl_unmodified CURL.Get sampleSecure).1 (by decide),
    (GetHttpUrl_unmodified CURL.Get sampleA).2 (by decide)⟩

/-! ## BuildURL -/

theorem CURL.getKey_setKey (k v : CStdString) (l : List (CStdString × CStdString)) :
    CURL.getKey k (CURL.setKey k v l) = some v := by
  induction l with
  | nil => simp [CURL.setKey, CURL.getKey]
  | cons kv rest ih =>
    obtain ⟨k1, v1⟩ := kv
    by_cases h : k1 = k
    · simp [CURL.setKey, CURL.getKey, h]
    · simp [CURL.setKey, CURL.getKey, h, ih]

theorem CStdString.starts_with_slash (p : CStdString) :
    CStdString.starts_with p "/" = true ↔ ∃ q : CStdString, p = "/" ++ q := by
  obtain ⟨l⟩ := p
  cases l with
  | nil =>
    simp only [CStdString.starts_with]
    constructor
    · intro h
      simp at h
    · rintro ⟨q, hq⟩
      have := congrArg String.data hq
      simp at this
  | cons x xs =>
    simp only [CStdString.starts_with]
    constructor
    · intro h
      have hx : x = '/' := by
        have h1 : ('/' == x) = true := by simpa [List.isPrefixOf] using h
        exact (beq_iff_eq.1 h1).symm
      exact ⟨⟨xs⟩, by rw [hx]; rfl⟩
    · rintro ⟨q, hq⟩
      have := congrArg String.data hq
      simp only [String.data_append] at this
      have hx : x = '/' := by
        have h2 := (List.cons.inj this).1
        exact h2
      rw [hx]
      simp [List.isPrefixOf]

theorem BuildURL_GetFileName (tokenParam : CStdString) (c : CPlexConnection) (p : CStdString) :
    (BuildURL tokenParam c p).GetFileName =
      if CStdString.starts_with p "/" = true then CStdString.substr p 1 none else p := by
  simp only [BuildURL]
  split_ifs <;> rfl

/-- C9: `BuildURL` sets the file name to the path with one leading `/` removed when
the path starts with `/`, and to the path itself otherwise; so `"/" + p` and `p` give
the same file name when `p` has no leading `/`, `"//x"` gives `"/x"`, and scheme,
hostname and port are the candidate's. -/
theorem BuildURL_fileName (tokenParam : CStdString) (c : CPlexConnection) (p : CStdString) :
    (BuildURL tokenParam c ("/" ++ p)).GetFileName = p ∧
      (CStdString.starts_with p "/" = true →
        "/" ++ (BuildURL tokenParam c p).GetFileName = p) ∧
      (CStdString.starts_with p "/" = false → (BuildURL tokenParam c p).GetFileName = p) ∧
      (CStdString.starts_with p "/" = false →
        (BuildURL tokenParam c ("/" ++ p)).GetFileName = (BuildURL tokenParam c p).GetFileName) ∧
      (BuildURL tokenParam c "//x").GetFileName = "/x" ∧
      (BuildURL tokenParam c p).GetProtocol = c.m_url.GetProtocol ∧
      (BuildURL tokenParam c p).GetHostName = c.m_url.GetHostName ∧
      (BuildURL tokenParam c p).GetPort = c.m_url.GetPort := by
  have hstrip : ∀ q : CStdString, (BuildURL tokenParam c ("/" ++ q)).GetFileName = q := by
    intro q
    rw [BuildURL_GetFileName, if_pos ((CStdString.starts_with_slash _).2 ⟨q, rfl⟩)]
    rfl
  have hkeep : CStdString.starts_with p "/" = false →
      (BuildURL tokenParam c p).GetFileName = p := by
    intro h
    rw [BuildURL_GetFileName, if_neg (by simp [h])]
  refine ⟨hstrip p, ?_, hkeep, fun h => by rw [hstrip p, hkeep h], hstrip "/x", ?_, ?_, ?_⟩
  · intro h
    obtain ⟨q, hq⟩ := (CStdString.starts_with_slash p).1 h
    rw [hq, hstrip q]
  · simp only [BuildURL]
    split_ifs <;> rfl
  · simp only [BuildURL]
    split_ifs <;> rfl
  · simp only [BuildURL]
    split_ifs <;> rfl

/-- Witness of C9: `/library/sections` and `library/sections` on a candidate with a
token. -/
theorem BuildURL_fileName_witness :
    "/" ++ (BuildURL "X-Plex-Token" sampleT "/library/sections").GetFileName =
        "/library/sections" ∧
      (BuildURL "X-Plex-Token" sampleT "library/sections").GetFileName = "library/sections" ∧
      (BuildURL "X-Plex-Token" sampleT ("/" ++ "library/sections")).GetFileName =
        (BuildURL "X-Plex-Token" sampleT "library/sections").GetFileName :=
  ⟨(BuildURL_fileName "X-Plex-Token" sampleT "/library/sections").2.1 (by decide),
    (BuildURL_fileName "X-Plex-Token" sampleT "library/sections").2.2.1 (by decide),
    (BuildURL_fileName "X-Plex-Token" sampleT "library/sections").2.2.2.1 (by decide)⟩

theorem new_options (type : Nat) (host : CStdString) (port : Int) (schema token : CStdString) :
    (CPlexConnection.new type host port schema token).m_url.options = [] := rfl

theorem Merge_options (c other : CPlexConnection) (hc : c.m_url.options = [])
    (ho : other.m_url.options = []) : (Merge c other).m_url.options = [] := by
  rw [Merge_m_url]
  split_ifs <;> assumption

theorem TestReachability_m_url (urlGet : CURL → CStdString) (tokenParam : CStdString)
    (http : Transport) (server : CPlexServer) (c : CPlexConnection) :
    (TestReachability urlGet tokenParam http server c).2.m_url = c.m_url := by
  rw [TestReachability_snd]

theorem CURL.HasOption_of_options_nil (u : CURL) (k : CStdString) (h : u.options = []) :
    u.HasOption k = false := by
  simp [CURL.HasOption, h, CURL.getKey]

/-- C10: the URL returned by `BuildURL` carries the access-token parameter exactly
when the candidate's token is non-empty, and then with the token as its value.  The
stored endpoint carries no such parameter beforehand: the constructor and `Merge`
never put a query parameter on it (`new_options`, `Merge_options`). -/
theorem BuildURL_token (tokenParam : CStdString) (c : CPlexConnection) (path : CStdString)
    (h : c.m_url.HasOption tokenParam = false) :
    ((BuildURL tokenParam c path).HasOption tokenParam = true ↔ c.m_token ≠ "") ∧
      (c.m_token ≠ "" → (BuildURL tokenParam c path).GetOption tokenParam = some c.m_token) := by
  by_cases ht : c.m_token = ""
  · have he : CStdString.IsEmpty c.GetAccessToken = true := (CStdString.IsEmpty_iff _).2 ht
    have hb : (BuildURL tokenParam c path).HasOption tokenParam = false := by
      simp only [BuildURL, he]
      exact h
    simp [hb, ht]
  · have he : CStdString.IsEmpty c.GetAccessToken = false :=
      (CStdString.IsEmpty_eq_false_iff _).2 ht
    have hb : (BuildURL tokenParam c path).GetOption tokenParam = some c.m_token := by
      simp only [BuildURL, he]
      exact CURL.getKey_setKey _ _ _
    have hb2 : (BuildURL tokenParam c path).HasOption tokenParam = true := by
      have : (BuildURL tokenParam c path).HasOption tokenParam =
          ((BuildURL tokenParam c path).GetOption tokenParam).isSome := rfl
      rw [this, hb]
      rfl
    exact ⟨⟨fun _ => ht, fun _ => hb2⟩, fun _ => hb⟩

/-- Witness of C10: token `T` is carried, and a candidate without a token carries
no token parameter. -/
theorem BuildURL_token_witness :
    (BuildURL "X-Plex-Token" sampleT "/").GetOption "X-Plex-Token" = some "T" ∧
      ¬ ((BuildURL "X-Plex-Token" sampleA "/").HasOption "X-Plex-Token" = true) :=
  ⟨(BuildURL_token "X-Plex-Token" sampleT "/" (by decide)).2 (by decide),
    fun hh => (BuildURL_token "X-Plex-Token" sampleA "/" (by decide)).1.1 hh (by decide)⟩

/-! ## Merge, continued -/

/-- C11: folding a candidate into itself leaves endpoint, origin mask, token and
state as they were and sets the refreshed flag. -/
theorem Merge_self (a : CPlexConnection) :
    (Merge a a).m_url = a.m_url ∧ (Merge a a).m_type = a.m_type ∧
      (Merge a a).m_token = a.m_token ∧ (Merge a a).m_state = a.m_state ∧
      (Merge a a).m_refreshed = true ∧ Merge a a = { a with m_refreshed := true } := by
  have hu : (Merge a a).m_url = a.m_url := by
    rw [Merge_m_url]
    split_ifs <;> rfl
  have hty : (Merge a a).m_type = a.m_type := by
    rw [Merge_m_type, Nat.or_self]
  have htk : (Merge a a).m_token = a.m_token := by
    rw [Merge_m_token]
    split_ifs <;> rfl
  have hst : (Merge a a).m_state = a.m_state := by
    rw [Merge_m_state]
    split_ifs <;> rfl
  have hr := Merge_m_refreshed a a
  refine ⟨hu, hty, htk, hst, hr, ?_⟩
  cases hm : Merge a a with
  | mk ty st tk u r =>
    rw [hm] at hu hty htk hst hr
    simp only at hu hty htk hst hr
    subst hu hty htk hst hr
    rfl

/-- C12: an insecure primary with an empty token merged with a secure other takes the
other's endpoint and token, the union of both origin masks, and is refreshed. -/
theorem Merge_insecure_untokened (c other : CPlexConnection)
    (hc : c.isSSL = false) (ht : c.m_token = "") (ho : other.isSSL = true) :
    (Merge c other).m_url = other.m_url ∧
      (Merge c other).m_type = c.m_type ||| other.m_type ∧
      (∀ i : Nat, (Merge c other).m_type.testBit i =
        (c.m_type.testBit i || other.m_type.testBit i)) ∧
      (Merge c other).m_token = other.m_token ∧
      (Merge c other).m_refreshed = true := by
  refine ⟨?_, Merge_m_type c other, ?_, ?_, Merge_m_refreshed c other⟩
  · rw [Merge_m_url, hc, ho]
    rfl
  · intro i
    rw [Merge_m_type, Nat.testBit_or]
  · rw [Merge_m_token, (CStdString.IsEmpty_iff c.m_token).2 ht]
    rfl

/-- Witness of C12: a manual, insecure candidate without a token and a secure
candidate from the remote directory with token `T`. -/
theorem Merge_insecure_untokened_witness :
    (Merge sampleManual sampleMyPlex).m_url = sampleMyPlex.m_url ∧
      (Merge sampleManual sampleMyPlex).m_type = CONNECTION_MANUAL ||| CONNECTION_MYPLEX ∧
      (Merge sampleManual sampleMyPlex).m_token = "T" ∧
      (Merge sampleManual sampleMyPlex).m_refreshed = true :=
  ⟨(Merge_insecure_untokened sampleManual sampleMyPlex (by decide) (by decide) (by decide)).1,
    (Merge_insecure_untokened sampleManual sampleMyPlex (by decide) (by decide) (by decide)).2.1,
    (Merge_insecure_untokened sampleManual sampleMyPlex (by decide) (by decide)
      (by decide)).2.2.2.1,
    (Merge_insecure_untokened sampleManual sampleMyPlex (by decide) (by decide)
      (by decide)).2.2.2.2⟩

/-- C16: `Merge` is not commutative: two candidates with different non-empty tokens
end with different tokens in the two orders, and two secure candidates with different
endpoints end with different endpoints; the merged origin mask and whether the merged
state is Reachable do not depend on the order. -/
theorem Merge_not_commutative :
    (Merge sampleT sampleU).m_token ≠ (Merge sampleU sampleT).m_token ∧
      (Merge sampleDirect sampleSecure).m_url ≠ (Merge sampleSecure sampleDirect).m_url ∧
      (∃ a b : CPlexConnection, Merge a b ≠ Merge b a) ∧
      (∀ a b : CPlexConnection, (Merge a b).m_type = (Merge b a).m_type) ∧
      (∀ a b : CPlexConnection, (Merge a b).m_state = CONNECTION_STATE_REACHABLE ↔
        (Merge b a).m_state = CONNECTION_STATE_REACHABLE) := by
  refine ⟨by decide, by decide, ⟨sampleT, sampleU, by decide⟩, ?_, ?_⟩
  · intro a b
    rw [Merge_m_type, Merge_m_type, Nat.lor_comm]
  · intro a b
    rw [Merge_m_state, Merge_m_state]
    by_cases h1 : a.m_state = CONNECTION_STATE_REACHABLE <;>
      by_cases h2 : b.m_state = CONNECTION_STATE_REACHABLE <;> simp [h1, h2]

/-! ## TestReachability, continued -/

theorem CStdString.root_path_stripped :
    (if CStdString.starts_with "/" "/" = true then CStdString.substr "/" 1 none else "/") = "" := by
  decide

theorem probeURL_fields (tokenParam : CStdString) (server : CPlexServer) (c : CPlexConnection) :
    (probeURL tokenParam server c).GetFileName = "" ∧
      (probeURL tokenParam server c).GetProtocol = c.m_url.GetProtocol ∧
      (probeURL tokenParam server c).GetHostName = c.m_url.GetHostName ∧
      (probeURL tokenParam server c).GetPort = c.m_url.GetPort := by
  simp only [probeURL, BuildURL, CStdString.root_path_stripped]
  split_ifs <;> exact ⟨rfl, rfl, rfl, rfl⟩

/-- C13: the URL that `TestReachability` requests is the root-path URL of the
candidate (empty file name, the candidate's scheme, hostname and port); its token
parameter is the candidate's own token when that is non-empty, otherwise the server's
`GetAnyToken()` when the server reports `HasAuthToken()`, otherwise absent.  The
outcome of the call depends on the transport only through its answer for that URL. -/
theorem TestReachability_request (urlGet : CURL → CStdString) (tokenParam : CStdString)
    (http : Transport) (server : CPlexServer) (c : CPlexConnection)
    (h : c.m_url.HasOption tokenParam = false) :
    ((probeURL tokenParam server c).GetFileName = "" ∧
        (probeURL tokenParam server c).GetProtocol = c.m_url.GetProtocol ∧
        (probeURL tokenParam server c).GetHostName = c.m_url.GetHostName ∧
        (probeURL tokenParam server c).GetPort = c.m_url.GetPort) ∧
      (c.m_token ≠ "" →
        probeURL tokenParam server c = BuildURL tokenParam c "/" ∧
          (probeURL tokenParam server c).GetOption tokenParam = some c.m_token) ∧
      (c.m_token = "" → server.HasAuthToken = true →
        (probeURL tokenParam server c).GetOption tokenParam = some server.GetAnyToken) ∧
      (c.m_token = "" → server.HasAuthToken = false →
        probeURL tokenParam server c = BuildURL tokenParam c "/" ∧
          (probeURL tokenParam server c).GetOption tokenParam = none) ∧
      (∀ http2 : Transport,
        http2 (urlGet (probeURL tokenParam server c)) =
            http (urlGet (probeURL tokenParam server c)) →
          TestReachability urlGet tokenParam http2 server c =
            TestReachability urlGet tokenParam http server c) := by
  refine ⟨probeURL_fields tokenParam server c, ?_, ?_, ?_, ?_⟩
  · intro ht
    have he : CStdString.IsEmpty c.GetAccessToken = false :=
      (CStdString.IsEmpty_eq_false_iff _).2 ht
    have hp : probeURL tokenParam server c = BuildURL tokenParam c "/" := by
      simp only [probeURL, he, Bool.false_and]
      rfl
    refine ⟨hp, ?_⟩
    rw [hp]
    simp only [BuildURL, he]
    exact CURL.getKey_setKey _ _ _
  · intro ht hs
    have he : CStdString.IsEmpty c.GetAccessToken = true := (CStdString.IsEmpty_iff _).2 ht
    simp only [probeURL, he, hs, Bool.and_self, if_true]
    exact CURL.getKey_setKey _ _ _
  · intro ht hs
    have he : CStdString.IsEmpty c.GetAccessToken = true := (CStdString.IsEmpty_iff _).2 ht
    have hp : probeURL tokenParam server c = BuildURL tokenParam c "/" := by
      simp only [probeURL, he, hs, Bool.and_false]
      rfl
    refine ⟨hp, ?_⟩
    rw [hp]
    simp only [BuildURL, he]
    have hk : (CURL.getKey tokenParam c.m_url.options).isSome = false := h
    cases hg : CURL.getKey tokenParam c.m_url.options with
    | none => simpa [CURL.GetOption, CURL.SetFileName] using hg
    | some v => rw [hg] at hk; simp at hk
  · intro http2 h2
    simp only [TestReachability, h2]

/-- Witness of C13: a candidate with token `T` sends `T` although the server holds a
token; a candidate without a token sends the server's token `S`, and none when the
server holds no token. -/
theorem TestReachability_request_witness :
    (probeURL "X-Plex-Token" sampleServer sampleT).GetOption "X-Plex-Token" = some "T" ∧
      (probeURL "X-Plex-Token" sampleServer sampleA).GetOption "X-Plex-Token" = some "S" ∧
      (probeURL "X-Plex-Token" sampleServerNoToken sampleA).GetOption "X-Plex-Token" = none :=
  ⟨((TestReachability_request CURL.Get "X-Plex-Token" httpDown sampleServer sampleT
      (by decide)).2.1 (by decide)).2,
    (TestReachability_request CURL.Get "X-Plex-Token" httpDown sampleServer sampleA
      (by decide)).2.2.1 (by decide) (by decide),
    ((TestReachability_request CURL.Get "X-Plex-Token" httpDown sampleServerNoToken sampleA
      (by decide)).2.2.2.1 (by decide) (by decide)).2⟩

/-- C14: `TestReachability` changes nothing but the state: token, endpoint, origin
mask and refreshed flag are as before; a candidate with an empty token still has an
empty token after a probe that borrowed the server's token. -/
theorem TestReachability_frame (urlGet : CURL → CStdString) (tokenParam : CStdString)
    (http : Transport) (server : CPlexServer) (c : CPlexConnection) :
    (TestReachability urlGet tokenParam http server c).2.m_token = c.m_token ∧
      (TestReachability urlGet tokenParam http server c).2.m_url = c.m_url ∧
      (TestReachability urlGet tokenParam http server c).2.m_type = c.m_type ∧
      (TestReachability urlGet tokenParam http server c).2.m_refreshed = c.m_refreshed ∧
      (c.m_token = "" → server.HasAuthToken = true →
        (TestReachability urlGet tokenParam http server c).2.m_token = "") := by
  rw [TestReachability_snd]
  exact ⟨rfl, rfl, rfl, rfl, fun ht _ => ht⟩

/-- Witness of C14: a probe of a candidate without a token against a server that
holds one. -/
theorem TestReachability_frame_witness :
    (TestReachability CURL.Get "X-Plex-Token" httpValid sampleServer sampleA).2.m_token = "" :=
  (TestReachability_frame CURL.Get "X-Plex-Token" httpValid sampleServer sampleA).2.2.2.2
    (by decide) (by decide)

/-- C18: a failed GET that the transport reports as cancelled yields Unknown,
whatever the last status code is; it is never classified Unreachable or
Unauthorized. -/
theorem TestReachability_cancelled (urlGet : CURL → CStdString) (tokenParam : CStdString)
    (http : Transport) (server : CPlexServer) (c : CPlexConnection)
    (hfail : (http (urlGet (probeURL tokenParam server c))).ok = false)
    (hcancel : (http (urlGet (probeURL tokenParam server c))).DidCancel = true) :
    (TestReachability urlGet tokenParam http server c).1 = CONNECTION_STATE_UNKNOWN ∧
      (TestReachability urlGet tokenParam http server c).2.m_state = CONNECTION_STATE_UNKNOWN ∧
      (TestReachability urlGet tokenParam http server c).1 ≠ CONNECTION_STATE_UNREACHABLE ∧
      (TestReachability urlGet tokenParam http server c).1 ≠ CONNECTION_STATE_UNAUTHORIZED := by
  have h1 : (TestReachability urlGet tokenParam http server c).1 = CONNECTION_STATE_UNKNOWN := by
    simp [TestReachability, hfail, hcancel]
  refine ⟨h1, ?_, ?_, ?_⟩
  · rw [TestReachability_snd, h1]
  · rw [h1]
    decide
  · rw [h1]
    decide

/-- Witness of C18: a cancelled GET whose last status reads 401. -/
theorem TestReachability_cancelled_witness :
    (httpCancelled401 "").LastHTTPResponseCode = 401 ∧
      (TestReachability CURL.Get "X-Plex-Token" httpCancelled401 sampleServer sampleT).1 =
        CONNECTION_STATE_UNKNOWN :=
  ⟨by decide,
    (TestReachability_cancelled CURL.Get "X-Plex-Token" httpCancelled401 sampleServer sampleT
      (by decide) (by decide)).1⟩

/-! ## Probes and merges in sequence -/

theorem TestReachability_not_reachable (urlGet : CURL → CStdString) (tokenParam : CStdString)
    (http : Transport) (server : CPlexServer) (c : CPlexConnection)
    (h : ((http (urlGet (probeURL tokenParam server c))).ok &&
      server.CollectDataFromRoot (http (urlGet (probeURL tokenParam server c))).body) = false) :
    (TestReachability urlGet tokenParam http server c).2.m_state ≠ CONNECTION_STATE_REACHABLE := by
  simp only [TestReachability]
  cases hok : (http (urlGet (probeURL tokenParam server c))).ok <;>
    cases hcol : server.CollectDataFromRoot (http (urlGet (probeURL tokenParam server c))).body <;>
    simp [hok, hcol] at h ⊢ <;> split_ifs <;> simp

theorem Merge_not_reachable (c other : CPlexConnection)
    (hc : c.m_state ≠ CONNECTION_STATE_REACHABLE)
    (ho : other.m_state ≠ CONNECTION_STATE_REACHABLE) :
    (Merge c other).m_state ≠ CONNECTION_STATE_REACHABLE := by
  rw [Merge_m_state, if_neg (fun hh => ho hh.2)]
  exact hc

theorem applyAction_not_reachable (urlGet : CURL → CStdString) (tokenParam : CStdString)
    (cs : List CPlexConnection) (a : Action)
    (hcs : ∀ c ∈ cs, c.m_state ≠ CONNECTION_STATE_REACHABLE)
    (ha : positiveProbe urlGet tokenParam cs a = false) :
    ∀ c ∈ applyAction urlGet tokenParam cs a, c.m_state ≠ CONNECTION_STATE_REACHABLE := by
  intro c hmem
  cases a with
  | probe i http server =>
    simp only [applyAction] at hmem
    simp only [positiveProbe] at ha
    cases hi : cs[i]? with
    | none =>
      rw [hi] at hmem
      exact hcs c hmem
    | some ci =>
      rw [hi] at hmem ha
      rcases List.mem_or_eq_of_mem_set hmem with h1 | h1
      · exact hcs c h1
      · rw [h1]
        exact TestReachability_not_reachable urlGet tokenParam http server ci ha
  | merge i j =>
    simp only [applyAction] at hmem
    cases hi : cs[i]? with
    | none =>
      rw [hi] at hmem
      exact hcs c hmem
    | some ci =>
      cases hj : cs[j]? with
      | none =>
        rw [hi, hj] at hmem
        exact hcs c hmem
      | some cj =>
        rw [hi, hj] at hmem
        rcases List.mem_or_eq_of_mem_set hmem with h1 | h1
        · exact hcs c h1
        · rw [h1]
          exact Merge_not_reachable ci cj (hcs ci (List.getElem?_mem hi))
            (hcs cj (List.getElem?_mem hj))

theorem runActions_not_reachable (urlGet : CURL → CStdString) (tokenParam : CStdString)
    (acts : List Action) (cs : List CPlexConnection)
    (hcs : ∀ c ∈ cs, c.m_state ≠ CONNECTION_STATE_REACHABLE)
    (hno : noPositiveProbe urlGet tokenParam cs acts = true) :
    ∀ c ∈ runActions urlGet tokenParam cs acts, c.m_state ≠ CONNECTION_STATE_REACHABLE := by
  induction acts generalizing cs with
  | nil => exact hcs
  | cons a rest ih =>
    simp only [noPositiveProbe, Bool.and_eq_true, Bool.not_eq_true'] at hno
    simp only [runActions]
    exact ih _ (applyAction_not_reachable urlGet tokenParam cs a hcs hno.1) hno.2

theorem construct_state (args : List CtorArgs) :
    ∀ c ∈ construct args, c.m_state = CONNECTION_STATE_UNKNOWN := by
  intro c hc
  simp only [construct, List.mem_map] at hc
  obtain ⟨a, _, rfl⟩ := hc
  rfl

/-- C15: starting from freshly constructed candidates (each in state Unknown), after
any finite sequence of `TestReachability` and `Merge` steps among them in which no
probe had both a successful GET and an accepted root document, no candidate is
Reachable. -/
theorem reachable_only_from_positive_probe (urlGet : CURL → CStdString)
    (tokenParam : CStdString) (args : List CtorArgs) (acts : List Action)
    (hno : noPositiveProbe urlGet tokenParam (construct args) acts = true) :
    (∀ c ∈ construct args, c.m_state = CONNECTION_STATE_UNKNOWN) ∧
      (∀ c ∈ runActions urlGet tokenParam (construct args) acts,
        c.m_state ≠ CONNECTION_STATE_REACHABLE) := by
  refine ⟨construct_state args, ?_⟩
  apply runActions_not_reachable urlGet tokenParam acts (construct args) _ hno
  intro c hc
  rw [construct_state args c hc]
  decide

/-- Witness of C15: two candidates, probed without success, merged both ways and
probed again. -/
theorem reachable_only_from_positive_probe_witness :
    (runActions CURL.Get "X-Plex-Token" (construct sampleArgs) sampleActions).length = 2 ∧
      (∀ c ∈ runActions CURL.Get "X-Plex-Token" (construct sampleArgs) sampleActions,
        c.m_state ≠ CONNECTION_STATE_REACHABLE) :=
  ⟨by decide,
    (reachable_only_from_positive_probe CURL.Get "X-Plex-Token" sampleArgs sampleActions
      (by decide)).2⟩

/-! ## GetHttpUrl and Equals, continued -/

theorem CStdString.Find_eq_label_length (host : CStdString)
    (he : CStdString.ends_with host ".plex.direct" = true) :
    CStdString.Find host '.' = ((firstLabel host).data.length : Int) := by
  unfold CStdString.Find firstLabel
  rw [CStdString.findFrom_of_mem '.' _ 0 (CStdString.mem_of_ends_with _ he)]
  simp

theorem CStdString.starts_with_http (x : CStdString) :
    CStdString.starts_with ("http://" ++ x) "http://" = true ∧
      CStdString.starts_with ("http://" ++ x) "https://" = false := by
  have hd : ("http://" ++ x).data = 'h' :: 't' :: 't' :: 'p' :: ':' :: '/' :: '/' :: x.data := rfl
  constructor
  · unfold CStdString.starts_with
    rw [hd]
    have hp : ("http://" : String).data = ['h', 't', 't', 'p', ':', '/', '/'] := rfl
    rw [hp]
    simp [List.isPrefixOf]
  · unfold CStdString.starts_with
    rw [hd]
    have hp : ("https://" : String).data = ['h', 't', 't', 'p', 's', ':', '/', '/'] := rfl
    rw [hp]
    simp [List.isPrefixOf]

theorem GetHttpUrl_congr (urlGet : CURL → CStdString) (a b : CPlexConnection)
    (h : a.m_url = b.m_url) : GetHttpUrl urlGet a = GetHttpUrl urlGet b := by
  unfold GetHttpUrl
  rw [h]

/-- C17, as the code has it: for an https candidate whose hostname ends with
`.plex.direct`, `GetHttpUrl` is an insecure URL (it starts with `http://`, not with
`https://`) on the candidate's own port when the first label of the hostname is
non-empty; when the hostname starts with `.`, it is the canonical string of the
stored endpoint. -/
theorem GetHttpUrl_insecure (urlGet : CURL → CStdString) (c : CPlexConnection)
    (hs : c.m_url.GetProtocol = "https")
    (he : CStdString.ends_with c.m_url.GetHostName ".plex.direct" = true) :
    (firstLabel c.m_url.GetHostName ≠ "" →
        CStdString.starts_with (GetHttpUrl urlGet c) "http://" = true ∧
          CStdString.starts_with (GetHttpUrl urlGet c) "https://" = false ∧
          ∃ h : CStdString, GetHttpUrl urlGet c =
            "http://" ++ h ++ ":" ++ CStdString.formatInt c.m_url.GetPort ++ "/") ∧
      (firstLabel c.m_url.GetHostName = "" → GetHttpUrl urlGet c = urlGet c.m_url) := by
  have hfind := CStdString.Find_eq_label_length c.m_url.GetHostName he
  constructor
  · intro hl
    have hne : (firstLabel c.m_url.GetHostName).data ≠ [] := by
      intro h0
      apply hl
      cases hf : firstLabel c.m_url.GetHostName with
      | mk l =>
        rw [hf] at h0
        simp only at h0
        rw [h0]
    have hpos : CStdString.Find c.m_url.GetHostName '.' > 0 := by
      rw [hfind]
      have := List.length_pos.2 hne
      exact_mod_cast this
    have hval : GetHttpUrl urlGet c =
        "http://" ++ CStdString.Replace (CStdString.substr c.m_url.GetHostName 0
          (some (CStdString.Find c.m_url.GetHostName '.').toNat)) '-' '.' ++ ":" ++
          CStdString.formatInt c.m_url.GetPort ++ "/" := by
      unfold GetHttpUrl
      rw [if_pos ⟨hs, he⟩]
      simp only []
      rw [if_pos hpos]
    have hshape : GetHttpUrl urlGet c =
        "http://" ++ (CStdString.Replace (CStdString.substr c.m_url.GetHostName 0
          (some (CStdString.Find c.m_url.GetHostName '.').toNat)) '-' '.' ++ ":" ++
          CStdString.formatInt c.m_url.GetPort ++ "/") := by
      rw [hval]
      simp only [String.append_assoc]
    refine ⟨?_, ?_, ⟨_, hval⟩⟩
    · rw [hshape]
      exact (CStdString.starts_with_http _).1
    · rw [hshape]
      exact (CStdString.starts_with_http _).2
  · intro hl
    have hzero : ¬ (CStdString.Find c.m_url.GetHostName '.' > 0) := by
      rw [hfind, hl]
      decide
    unfold GetHttpUrl
    rw [if_pos ⟨hs, he⟩]
    simp only []
    rw [if_neg hzero]

/-- Witness of C17: a generated hostname with an address label, and the bare suffix. -/
theorem GetHttpUrl_insecure_witness :
    CStdString.starts_with (GetHttpUrl CURL.Get sampleDirect) "http://" = true ∧
      GetHttpUrl CURL.Get sampleBare = CURL.Get sampleBare.m_url :=
  ⟨((GetHttpUrl_insecure CURL.Get sampleDirect (by decide) (by decide)).1 (by decide)).1,
    (GetHttpUrl_insecure CURL.Get sampleBare (by decide) (by decide)).2 (by decide)⟩

/-- C17 fails as stated: an https candidate whose hostname is `.plex.direct` ends with
the suffix, and its `GetHttpUrl` is the stored https endpoint. -/
theorem GetHttpUrl_bare_suffix_stays_secure :
    sampleBare.m_url.GetProtocol = "https" ∧
      CStdString.ends_with sampleBare.m_url.GetHostName ".plex.direct" = true ∧
      GetHttpUrl CURL.Get sampleBare = "https://.plex.direct:32400/" ∧
      CStdString.starts_with (GetHttpUrl CURL.Get sampleBare) "http://" = false ∧
      CStdString.starts_with (GetHttpUrl CURL.Get sampleBare) "https://" = true := by
  decide

/-- C19: when `primary.Equals(other)` holds, `Merge(primary, other)` leaves the plain
URL of primary unchanged, and the merged candidate still equals other and the
original primary. -/
theorem Merge_preserves_Equals (urlGet : CURL → CStdString) (c other : CPlexConnection)
    (h : Equals urlGet c (some other) = true) :
    GetHttpUrl urlGet (Merge c other) = GetHttpUrl urlGet c ∧
      Equals urlGet (Merge c other) (some other) = true ∧
      Equals urlGet (Merge c other) (some c) = true := by
  obtain ⟨hu, ht⟩ := (Equals_some_iff urlGet c other).1 h
  have hurl : GetHttpUrl urlGet (Merge c other) = GetHttpUrl urlGet c := by
    by_cases hg : (!c.isSSL || other.isSSL) = true
    · rw [GetHttpUrl_congr urlGet (Merge c other) other (by rw [Merge_m_url, if_pos hg]), hu]
    · exact GetHttpUrl_congr urlGet (Merge c other) c (by rw [Merge_m_url, if_neg hg])
  have htok : (Merge c other).m_token = other.m_token ∨
      ((Merge c other).m_token = c.m_token ∧ (other.m_token = "" ∨ c.m_token = other.m_token)) := by
    rw [Merge_m_token]
    split_ifs with hg
    · exact Or.inl rfl
    · refine Or.inr ⟨rfl, ?_⟩
      simp only [Bool.or_eq_true, Bool.and_eq_true, Bool.not_eq_true', decide_eq_true_iff,
        not_or, not_and] at hg
      rcases ht with h1 | h1 | h1
      · exact absurd ((CStdString.IsEmpty_iff _).2 h1) hg.1
      · exact Or.inl h1
      · exact Or.inr h1
  refine ⟨hurl, ?_, ?_⟩
  · rw [Equals_some_iff]
    refine ⟨hurl.trans hu, ?_⟩
    rcases htok with h1 | ⟨h1, h2 | h2⟩
    · exact Or.inr (Or.inr h1)
    · exact Or.inr (Or.inl h2)
    · exact Or.inr (Or.inr (h1.trans h2))
  · rw [Equals_some_iff]
    refine ⟨hurl, ?_⟩
    rcases htok with h1 | ⟨h1, _⟩
    · rcases ht with h2 | h2 | h2
      · exact Or.inr (Or.inl h2)
      · exact Or.inl (h1.trans h2)
      · exact Or.inr (Or.inr (h1.trans h2.symm))
    · exact Or.inr (Or.inr h1)

/-- Witness of C19: the same address without a token and with token `T`. -/
theorem Merge_preserves_Equals_witness :
    GetHttpUrl CURL.Get (Merge sampleA sampleT) = GetHttpUrl CURL.Get sampleA ∧
      Equals CURL.Get (Merge sampleA sampleT) (some sampleT) = true ∧
      Equals CURL.Get (Merge sampleA sampleT) (some sampleA) = true :=
  Merge_preserves_Equals CURL.Get sampleA sampleT (by decide)

/-- C20: `Equals` is not transitive: at one address, the candidate with token `T`
equals the one without a token, which equals the one with token `U`, while the
candidates with tokens `T` and `U` are not equal. -/
theorem Equals_not_transitive (urlGet : CURL → CStdString) :
    (Equals urlGet sampleT (some sampleA) = true ∧ Equals urlGet sampleA (some sampleU) = true ∧
        Equals urlGet sampleT (some sampleU) = false) ∧
      ¬ (∀ a b c : CPlexConnection, Equals urlGet a (some b) = true →
        Equals urlGet b (some c) = true → Equals urlGet a (some c) = true) := by
  have h1 : Equals urlGet sampleT (some sampleA) = true :=
    (Equals_some_iff urlGet sampleT sampleA).2 ⟨rfl, Or.inr (Or.inl rfl)⟩
  have h2 : Equals urlGet sampleA (some sampleU) = true :=
    (Equals_some_iff urlGet sampleA sampleU).2 ⟨rfl, Or.inl rfl⟩
  have h3 : Equals urlGet sampleT (some sampleU) = false := by
    rw [Bool.eq_false_iff]
    intro hh
    obtain ⟨_, ht⟩ := (Equals_some_iff urlGet sampleT sampleU).1 hh
    revert ht
    decide
  exact ⟨⟨h1, h2, h3⟩, fun hall => by
    have := hall sampleT sampleA sampleU h1 h2
    rw [h3] at this
    exact Bool.noConfusion this⟩

end Plex
